import Mathlib

/-
Verification of the lamb static-site builder core (scope tree, page factory,
transform pipeline, render engine) against its natural-language specification.
The TypeScript source is shallowly embedded: strings are Lean strings, the
filesystem, the external markdown compiler, the external glob matcher and the
external YAML parser are explicit parameters or small executable models, and
the process-wide mutable caches are threaded as association lists.
-/

--===========================================================================
-- String utilities mirroring the JavaScript standard library operations
-- that the source relies on.
--===========================================================================

/-- Model of the JavaScript split on the regular expression matching three
hyphens followed by an optional carriage return and a newline, scanning left
to right, as used by the Markdown special-import loader in page.ts. -/
def splitDashesAux : List Char → List Char → List (List Char)
  | '-' :: '-' :: '-' :: '\r' :: '\n' :: rest, acc => acc.reverse :: splitDashesAux rest []
  | '-' :: '-' :: '-' :: '\n' :: rest, acc => acc.reverse :: splitDashesAux rest []
  | c :: rest, acc => splitDashesAux rest (c :: acc)
  | [], acc => [acc.reverse]

/-- Split a string on the horizontal-rule delimiter, as content.split in
Loaders.Markdown (page.ts). -/
def splitDashes (s : String) : List String :=
  (splitDashesAux s.data []).map (fun cs => String.mk cs)

/-- Model of the JavaScript String.replace with a plain-string pattern: only
the first occurrence is replaced. Dollar-escape expansion in the replacement
string is not modeled (no claim depends on it). -/
def replaceFirstAux (pat repl : List Char) : List Char → List Char
  | [] => []
  | c :: rest =>
    if pat.isPrefixOf (c :: rest) then repl ++ (c :: rest).drop pat.length
    else c :: replaceFirstAux pat repl rest

/-- Replace the first occurrence of pat in s by repl. -/
def replaceFirst (s pat repl : String) : String :=
  String.mk (replaceFirstAux pat.data repl.data s.data)

/-- Whether pat occurs as a contiguous subsequence of the character list. -/
def containsSeq (pat : List Char) : List Char → Bool
  | [] => pat.isEmpty
  | c :: rest => pat.isPrefixOf (c :: rest) || containsSeq pat rest

/-- Model of node path.dirname: the portion before the last slash, with the
JavaScript conventions for no slash and a single leading slash. -/
def jsDirname (p : String) : String :=
  let rev := p.data.reverse
  let tailAfter := rev.dropWhile (fun c => c ≠ '/')
  match tailAfter with
  | [] => "."
  | [_] => "/"
  | _ :: before => String.mk before.reverse

/-- Model of node path.basename: the portion after the last slash. -/
def jsBasename (p : String) : String :=
  String.mk ((p.data.reverse.takeWhile (fun c => c ≠ '/')).reverse)

/-- Split a basename into name and extension at the last dot, per node
path.parse: a dot in first position does not start an extension. -/
def splitExt (base : String) : String × String :=
  let rev := base.data.reverse
  let revExt := rev.takeWhile (fun c => c ≠ '.')
  let rest := rev.dropWhile (fun c => c ≠ '.')
  match rest with
  | [] => (base, "")
  | [_] => (base, "")
  | _ :: more => (String.mk more.reverse, String.mk ('.' :: revExt.reverse))

/-- Extension (with the dot) of the basename of p, as path.parse(p).ext. -/
def jsExtname (p : String) : String := (splitExt (jsBasename p)).2

/-- Basename without extension, as path.parse(p).name. -/
def jsNameOf (p : String) : String := (splitExt (jsBasename p)).1

/-- Model of path.join for the clean dir-plus-entry joins the source performs. -/
def jsPathJoin (dir entry : String) : String := dir ++ "/" ++ entry

/-- Whether the import path contains a wildcard, as importPath.includes in
the SpecialImports plugin (transform.ts). -/
def hasStar (p : String) : Bool := p.data.contains '*'

--===========================================================================
-- JSON-like values (frontmatter entries, loader results) and the
-- JavaScript object-assignment discipline used on them.
--===========================================================================

/-- JSON-serializable value, the shape babelExprToValue and valueToBabelExpr
translate between in transform.ts. -/
inductive JVal where
  | str (s : String)
  | num (n : Int)
  | bool (b : Bool)
  | null
  | arr (xs : List JVal)
  | obj (fields : List (String × JVal))
deriving Repr

/-- Set a key in an association list with the JavaScript object-assignment
position discipline: an existing key keeps its position, a new key appends. -/
def assocSet {α : Type} : List (String × α) → String → α → List (String × α)
  | [], k, v => [(k, v)]
  | (k2, v2) :: rest, k, v =>
    if k2 = k then (k, v) :: rest else (k2, v2) :: assocSet rest k v

/-- First-match association lookup, modeling property access on the
JavaScript record objects the source uses as maps. -/
def lookupS {α : Type} : List (String × α) → String → Option α
  | [], _ => none
  | (k2, v) :: rest, key => if k2 = key then some v else lookupS rest key

/-- Model of Object.assign(target, src): every key of src is written into
target in order. -/
def objAssign (target src : List (String × JVal)) : List (String × JVal) :=
  src.foldl (fun t kv => assocSet t kv.1 kv.2) target

/-- Split a character list at newlines. -/
def splitLinesAux : List Char → List Char → List (List Char)
  | [], acc => [acc.reverse]
  | '\n' :: rest, acc => acc.reverse :: splitLinesAux rest []
  | c :: rest, acc => splitLinesAux rest (c :: acc)

/-- Split a line at the first colon-space separator. -/
def splitColonAux : List Char → List Char → Option (List Char × List Char)
  | [], _ => none
  | ':' :: ' ' :: rest, acc => some (acc.reverse, rest)
  | c :: rest, acc => splitColonAux rest (c :: acc)

/-- Model of the external YAML parser restricted to flat maps of string
values, one key-colon-value pair per line, the only shape the claims touch. -/
def parseYamlLine (line : List Char) : Option (String × JVal) :=
  match splitColonAux line [] with
  | none => none
  | some (k, v) => some (String.mk k, JVal.str (String.mk v))

/-- Parse a flat YAML document into frontmatter entries. -/
def yamlParseFlat (s : String) : List (String × JVal) :=
  (splitLinesAux s.data []).filterMap parseYamlLine

-- Sanity checks on the string models.
example : splitDashes "---\ntitle: Hello\n---\nBody text"
    = ["", "title: Hello\n", "Body text"] := by decide
example : jsDirname "/dir/page.jsx" = "/dir" := by decide
example : jsExtname "./*.md" = ".md" := by decide
example : jsNameOf "/r/sub/_layout.html" = "_layout" := by decide
example : yamlParseFlat "title: Hello\n" = [("title", JVal.str "Hello")] := rfl

--===========================================================================
-- Scope tree builder and scope cache (src/scope.ts, src/index.ts).
--===========================================================================

/-- Minimal model of a LambPage as seen by the scope tree builder: the layout
page produced by createPage for a layout path. Compilation of its contents is
abstracted behind the mkPage parameter of the scope functions. -/
structure PageM where
  path : String
deriving Repr, DecidableEq

/-- Model of a LambScope (scope.ts). The JavaScript root and parent object
references are modeled by the referenced scopes' paths, which key the cache. -/
structure ScopeM where
  path : String
  name : String
  parent? : Option String
  rootPath : String
  layout? : Option PageM
  childrenKeys : List String
  pages : List PageM
deriving Repr, DecidableEq

/-- Creation options of createScope (scope.ts), with the root and parent
scope references modeled by their paths. -/
structure ScopeOpts where
  path : String
  root? : Option String
  parent? : Option String
deriving Repr, DecidableEq

/-- The fixed priority-ordered list of recognized layout filenames from
createScope (scope.ts). -/
def layoutNames : List String :=
  ["_layout.html", "_layout.js", "_layout.jsx", "_layout.ts", "_layout.tsx"]

/-- Layout search loop of createScope: iterate the recognized filenames in
order and overwrite the layout whenever the file exists, so a later match
replaces an earlier one. mkPage abstracts the createPage call on the layout
path; fsExists abstracts existsSync. -/
def findLayout (mkPage : String → PageM) (fsExists : String → Bool)
    (dir : String) : Option PageM :=
  layoutNames.foldl
    (fun acc layoutName =>
      if fsExists (jsPathJoin dir layoutName) then some (mkPage (jsPathJoin dir layoutName))
      else acc)
    none

/-- The message of the error thrown by createScope when the root scope has no
layout (scope.ts line 142; the filename pattern list is elided). -/
def rootLayoutMissingMsg : String := "Root layout is missing."

/-- Model of createScope (scope.ts lines 105 to 149). The scope is written to
the scope cache unconditionally, before the root-layout check, exactly as the
source assigns state.scopecache before possibly throwing; the cache entry is
the final mutated object, so it carries the located layout. Note createScope
performs no cache lookup. The first component is the returned scope or the
thrown error; the second is the cache after the call. -/
def createScopeM (mkPage : String → PageM) (fsExists : String → Bool)
    (cache : List (String × ScopeM)) (opts : ScopeOpts) :
    Except String ScopeM × List (String × ScopeM) :=
  let scope : ScopeM :=
    { path := opts.path
      name := jsNameOf opts.path
      parent? := opts.parent?
      rootPath := opts.root?.getD opts.path
      layout? := findLayout mkPage fsExists opts.path
      childrenKeys := []
      pages := [] }
  let cache2 := assocSet cache opts.path scope
  if opts.root?.isNone && scope.layout?.isNone then
    (Except.error rootLayoutMissingMsg, cache2)
  else
    (Except.ok scope, cache2)

/-- Model of getScope (scope.ts lines 178 to 190): return the cached scope
for the path if present, else recursively resolve the parent directory's
scope and create this one under it. The source recursion has no base case
other than a cache hit; the fuel argument makes that explicit, with a none
result for every fuel standing for divergence. -/
def getScopeM (mkPage : String → PageM) (fsExists : String → Bool) :
    Nat → List (String × ScopeM) → String → Option (ScopeM × List (String × ScopeM))
  | 0, _, _ => none
  | fuel + 1, cache, p =>
    match lookupS cache p with
    | some s => some (s, cache)
    | none =>
      match getScopeM mkPage fsExists fuel cache (jsDirname p) with
      | none => none
      | some (parentScope, cache2) =>
        match createScopeM mkPage fsExists cache2
            ⟨p, some parentScope.rootPath, some parentScope.path⟩ with
        | (Except.ok s, cache3) => some (s, cache3)
        | (Except.error _, _) => none

/-- Iterated parent directory, modeling k applications of path.parse(..).dir
as performed by the getScope recursion. -/
def dirIter : Nat → String → String
  | 0, p => p
  | k + 1, p => dirIter k (jsDirname p)

/-- Model of main (index.ts lines 24 to 69) up to the point that decides
claim C8: the root scope is created first with empty caches, and every later
build step (child construction, output directory creation, rendering and file
writes) is abstracted into restBuild, which runs only if createScope
succeeds. A thrown error is caught at the top level, so an error result means
the build performed none of the steps in restBuild and wrote no output. -/
def mainBuildM (mkPage : String → PageM) (fsExists : String → Bool)
    (restBuild : ScopeM → List (String × ScopeM) → Except String (List (String × String)))
    (cwd : String) : Except String (List (String × String)) :=
  match createScopeM mkPage fsExists [] ⟨cwd, none, none⟩ with
  | (Except.error e, _) => Except.error e
  | (Except.ok rootScope, cache) => restBuild rootScope cache

--===========================================================================
-- Helper lemmas for the scope cluster.
--===========================================================================

/-- Identity page factory used by concrete instances. -/
def mkPageId : String → PageM := fun p => ⟨p⟩

/-- Filesystem with no files at all. -/
def fsNone : String → Bool := fun _ => false

/-- Image of the last element of an optional value under g, with a default. -/
def pickLast {α β : Type} (g : α → β) (o : Option α) (acc : Option β) : Option β :=
  match o with
  | some x => some (g x)
  | none => acc

/-- A left fold that overwrites an optional accumulator on every hit keeps
the last hit: it computes the image of the last element passing the test. -/
theorem foldl_if_some_eq {α β : Type} (f : α → Bool) (g : α → β) (l : List α) :
    ∀ acc : Option β,
      l.foldl (fun acc2 x => if f x then some (g x) else acc2) acc
        = pickLast g ((l.filter f).getLast?) acc := by
  induction l using List.reverseRecOn with
  | nil => intro acc; rfl
  | append_singleton xs x ih =>
    intro acc
    rw [List.foldl_append, List.filter_append]
    cases hx : f x
    · simpa [hx] using ih acc
    · simp [hx, List.getLast?_concat, pickLast]

/-- The layout search result is the last recognized layout filename that
exists, mapped through the page factory. -/
theorem findLayout_eq_getLast (mkPage : String → PageM) (fsExists : String → Bool)
    (dir : String) :
    findLayout mkPage fsExists dir
      = pickLast (fun n => mkPage (jsPathJoin dir n))
          ((layoutNames.filter (fun n => fsExists (jsPathJoin dir n))).getLast?) none := by
  unfold findLayout
  exact foldl_if_some_eq (fun n => fsExists (jsPathJoin dir n))
    (fun n => mkPage (jsPathJoin dir n)) layoutNames none

/-- createScope never throws when a root reference is passed in, and returns
the freshly built scope together with the overwritten cache. -/
theorem createScopeM_ok_of_root_some (mkPage : String → PageM) (fsExists : String → Bool)
    (cache : List (String × ScopeM)) (opts : ScopeOpts) (r : String)
    (h : opts.root? = some r) :
    createScopeM mkPage fsExists cache opts =
      (Except.ok (ScopeM.mk opts.path (jsNameOf opts.path) opts.parent? r
          (findLayout mkPage fsExists opts.path) [] []),
       assocSet cache opts.path (ScopeM.mk opts.path (jsNameOf opts.path) opts.parent? r
          (findLayout mkPage fsExists opts.path) [] [])) := by
  simp [createScopeM, h]

/-- getScope succeeds whenever the path or an iterated parent directory of it
is cached and the fuel exceeds the number of parent steps needed. -/
theorem getScopeM_isSome_of_ancestor_cached (mkPage : String → PageM)
    (fsExists : String → Bool) :
    ∀ (k : Nat) (p : String) (cache : List (String × ScopeM)) (s : ScopeM) (fuel : Nat),
      lookupS cache (dirIter k p) = some s → k < fuel →
      (getScopeM mkPage fsExists fuel cache p).isSome = true := by
  intro k
  induction k with
  | zero =>
    intro p cache s fuel h hlt
    match fuel, hlt with
    | fuel + 1, _ =>
      have h0 : lookupS cache p = some s := h
      simp [getScopeM, h0]
  | succ k ih =>
    intro p cache s fuel h hlt
    match fuel, hlt with
    | fuel + 1, hlt =>
      cases hc : lookupS cache p with
      | some s2 => simp [getScopeM, hc]
      | none =>
        have hstep : lookupS cache (dirIter k (jsDirname p)) = some s := h
        have hrec := ih (jsDirname p) cache s fuel hstep (Nat.lt_of_succ_lt_succ hlt)
        cases hg : getScopeM mkPage fsExists fuel cache (jsDirname p) with
        | none => rw [hg] at hrec; simp at hrec
        | some pc =>
          have hcs := createScopeM_ok_of_root_some mkPage fsExists pc.2
            ⟨p, some pc.1.rootPath, some pc.1.path⟩ pc.1.rootPath rfl
          simp [getScopeM, hc, hg, hcs]

/-- On a cache where neither the path nor any iterated parent directory is
present, getScope fails for every fuel: the recursion has no other base case
and the source function diverges. -/
theorem getScopeM_none_of_no_ancestor (mkPage : String → PageM)
    (fsExists : String → Bool) (cache : List (String × ScopeM)) :
    ∀ (fuel : Nat) (p : String),
      (∀ j : Nat, lookupS cache (dirIter j p) = none) →
      getScopeM mkPage fsExists fuel cache p = none := by
  intro fuel
  induction fuel with
  | zero => intro p _; rfl
  | succ fuel ih =>
    intro p h
    have h0 : lookupS cache p = none := h 0
    have hrec : getScopeM mkPage fsExists fuel cache (jsDirname p) = none :=
      ih (jsDirname p) (fun j => h (j + 1))
    simp [getScopeM, h0, hrec]

--===========================================================================
-- Claims C1, C7, C8, C10.
--===========================================================================

deriving instance DecidableEq for Except

/-- Scope already cached for the path used in the C1 counterexample; it
carries a page, so it is observably different from a freshly built scope. -/
def cachedSubC1 : ScopeM := ⟨"/r/sub", "sub", some "/r", "/r", none, [], [⟨"/r/sub/old.md"⟩]⟩

/-- Cache holding a scope for the path about to be rebuilt. -/
def cacheC1 : List (String × ScopeM) := [("/r/sub", cachedSubC1)]

/-- Creation options naming an already-cached path, with root and parent
references supplied as getScope would. -/
def optsC1 : ScopeOpts := ⟨"/r/sub", some "/r", some "/r"⟩

/-- C1 counterexample: createScope performs no cache check. Invoked on a path
whose Scope is already in the scope cache, it does not return the cached
Scope (the returned scope differs observably from the cached one), and it
overwrites the cache entry with the new instance, contradicting the claim
that building a scope for an already-cached path returns the cached Scope
itself and caches no new instance. -/
theorem C1_counterexample :
    lookupS cacheC1 "/r/sub" = some cachedSubC1 ∧
    (createScopeM mkPageId fsNone cacheC1 optsC1).1 ≠ Except.ok cachedSubC1 ∧
    (createScopeM mkPageId fsNone cacheC1 optsC1).2 ≠ cacheC1 := by
  refine ⟨rfl, ?_, ?_⟩ <;> decide

/-- C1 amended: the cached-Scope identity guarantee belongs to the lazy
resolver getScope, not to createScope. getScope invoked on a path whose
Scope is cached returns that cached Scope itself and leaves the cache
unchanged; createScope itself always constructs a fresh Scope and overwrites
the cache entry, and at-most-one-instance holds only because every call path
invokes createScope solely on cache misses. -/
theorem C1_amended_cache_hit_identity :
    ∀ (mkPage : String → PageM) (fsExists : String → Bool)
      (cache : List (String × ScopeM)) (p : String) (s : ScopeM) (fuel : Nat),
      lookupS cache p = some s →
      getScopeM mkPage fsExists (fuel + 1) cache p = some (s, cache) := by
  intro mkPage fsExists cache p s fuel h
  simp [getScopeM, h]

/-- Witness for the amended C1 theorem at a concrete cached scope. -/
theorem C1_amended_witness :
    lookupS cacheC1 "/r/sub" = some cachedSubC1 ∧
    getScopeM mkPageId fsNone 1 cacheC1 "/r/sub" = some (cachedSubC1, cacheC1) :=
  ⟨rfl, C1_amended_cache_hit_identity mkPageId fsNone cacheC1 "/r/sub" cachedSubC1 0 rfl⟩

/-- C7: when more than one recognized layout filename exists in the same
directory, the created scope's layout is the page built from the last
matching filename in the fixed priority order (html, js, jsx, ts, tsx). -/
theorem C7_last_layout_wins :
    ∀ (mkPage : String → PageM) (fsExists : String → Bool)
      (cache : List (String × ScopeM)) (opts : ScopeOpts) (lastName : String),
      1 < (layoutNames.filter (fun n => fsExists (jsPathJoin opts.path n))).length →
      (layoutNames.filter (fun n => fsExists (jsPathJoin opts.path n))).getLast?
        = some lastName →
      ∃ s cache2, createScopeM mkPage fsExists cache opts = (Except.ok s, cache2) ∧
        s.layout? = some (mkPage (jsPathJoin opts.path lastName)) := by
  intro mkPage fsExists cache opts lastName _ hlast
  have hfl : findLayout mkPage fsExists opts.path
      = some (mkPage (jsPathJoin opts.path lastName)) := by
    rw [findLayout_eq_getLast, hlast]
    rfl
  refine ⟨ScopeM.mk opts.path (jsNameOf opts.path) opts.parent? (opts.root?.getD opts.path)
      (some (mkPage (jsPathJoin opts.path lastName))) [] [],
    assocSet cache opts.path (ScopeM.mk opts.path (jsNameOf opts.path) opts.parent?
      (opts.root?.getD opts.path) (some (mkPage (jsPathJoin opts.path lastName))) [] []),
    ?_, rfl⟩
  simp [createScopeM, hfl]

/-- Filesystem for the C7 witness: both the html and the tsx layout names
exist in the root directory. -/
def fsC7 : String → Bool := fun p => p == "/r/_layout.html" || p == "/r/_layout.tsx"

/-- Root creation options for the C7 witness. -/
def optsC7 : ScopeOpts := ⟨"/r", none, none⟩

/-- Witness for C7: with both an html and a tsx layout present, the scope's
layout is the page built from the tsx name, the later of the two in the
priority order. -/
theorem C7_witness :
    (1 < (layoutNames.filter (fun n => fsC7 (jsPathJoin optsC7.path n))).length) ∧
    ((layoutNames.filter (fun n => fsC7 (jsPathJoin optsC7.path n))).getLast?
      = some "_layout.tsx") ∧
    (∃ s cache2, createScopeM mkPageId fsC7 [] optsC7 = (Except.ok s, cache2) ∧
      s.layout? = some (mkPageId (jsPathJoin optsC7.path "_layout.tsx"))) :=
  ⟨by decide, by decide,
   C7_last_layout_wins mkPageId fsC7 [] optsC7 "_layout.tsx" (by decide) (by decide)⟩

/-- C8: if no recognized layout filename exists in the root directory, the
build fails with the root-layout configuration error before any later build
step runs, so no output file is produced (restBuild, which contains child
construction, rendering and all writes, is never reached). -/
theorem C8_root_without_layout_fails :
    ∀ (mkPage : String → PageM) (fsExists : String → Bool)
      (restBuild : ScopeM → List (String × ScopeM) → Except String (List (String × String)))
      (cwd : String),
      (∀ n ∈ layoutNames, fsExists (jsPathJoin cwd n) = false) →
      mainBuildM mkPage fsExists restBuild cwd = Except.error rootLayoutMissingMsg := by
  intro mkPage fsExists restBuild cwd h
  have h1 := h "_layout.html" (by simp [layoutNames])
  have h2 := h "_layout.js" (by simp [layoutNames])
  have h3 := h "_layout.jsx" (by simp [layoutNames])
  have h4 := h "_layout.ts" (by simp [layoutNames])
  have h5 := h "_layout.tsx" (by simp [layoutNames])
  simp [mainBuildM, createScopeM, findLayout, layoutNames, h1, h2, h3, h4, h5]

/-- Witness for C8 on an empty filesystem: the build errors and the
(nonempty) output that restBuild would produce is never returned. -/
theorem C8_witness :
    (∀ n ∈ layoutNames, fsNone (jsPathJoin "/proj" n) = false) ∧
    mainBuildM mkPageId fsNone (fun _ _ => Except.ok [("/out/index.html", "x")]) "/proj"
      = Except.error rootLayoutMissingMsg :=
  ⟨fun _ _ => rfl,
   C8_root_without_layout_fails mkPageId fsNone
     (fun _ _ => Except.ok [("/out/index.html", "x")]) "/proj" (fun _ _ => rfl)⟩

/-- C10: getScope terminates with a scope whenever the path itself or some
iterated parent directory of it is cached (given fuel exceeding the number
of parent steps), and a cache hit on the path or an ancestor is its only
base case: on a cache containing no ancestor of the path, it fails for every
fuel, i.e. the unbounded source recursion never returns. -/
theorem C10_getScope_basecases :
    ∀ (mkPage : String → PageM) (fsExists : String → Bool),
      (∀ (k : Nat) (p : String) (cache : List (String × ScopeM)) (s : ScopeM) (fuel : Nat),
        lookupS cache (dirIter k p) = some s → k < fuel →
        (getScopeM mkPage fsExists fuel cache p).isSome = true) ∧
      (∀ (cache : List (String × ScopeM)) (p : String),
        (∀ j : Nat, lookupS cache (dirIter j p) = none) →
        ∀ fuel : Nat, getScopeM mkPage fsExists fuel cache p = none) :=
  fun mkPage fsExists =>
    ⟨getScopeM_isSome_of_ancestor_cached mkPage fsExists,
     fun cache p h fuel => getScopeM_none_of_no_ancestor mkPage fsExists cache fuel p h⟩

/-- Root scope cached for the C10 witness. -/
def rootScopeW : ScopeM := ⟨"/r", "r", none, "/r", some ⟨"/r/_layout.html"⟩, [], []⟩

/-- Cache containing only the root scope. -/
def cacheW : List (String × ScopeM) := [("/r", rootScopeW)]

/-- Witness for C10: resolving a child of the cached root succeeds, and
resolving any path over an empty cache fails at every tried fuel. -/
theorem C10_witness :
    (lookupS cacheW (dirIter 1 "/r/sub") = some rootScopeW) ∧
    ((getScopeM mkPageId fsNone 2 cacheW "/r/sub").isSome = true) ∧
    (getScopeM mkPageId fsNone 7 [] "/x/y" = none) :=
  ⟨by decide,
   (C10_getScope_basecases mkPageId fsNone).1 1 "/r/sub" cacheW rootScopeW 2
     (by decide) (by decide),
   (C10_getScope_basecases mkPageId fsNone).2 [] "/x/y" (fun _ => rfl) 7⟩

--===========================================================================
-- Render engine (renderPage in page.ts, renderScope in scope.ts).
--===========================================================================

/-- The internal body placeholder token substituted by the renderers
(written with escaped braces). -/
def bodyToken : String := "\x7b\x7bbody\x7d\x7d"

/-- Whether the body placeholder token occurs in a string. -/
def hasBodyToken (s : String) : Bool := containsSeq bodyToken.data s.data

/-- Compiled page contents as the render engine sees them, one constructor
per page type of page.ts. For an html page the contents are the raw string.
For a markdown page the external chain (compiled generator, preact render to
string) is abstracted into the string it produces at the empty parameter
object, the only parameters renderScope ever passes. For a programmatic page
the compiled component plus html-to-react parsing plus preact rendering is
abstracted into a function from the optional nested body to the output. -/
inductive PContents where
  | htmlC (s : String)
  | mdC (rendered : String)
  | jsC (f : Option String → String)

/-- Model of renderPage (page.ts lines 102 to 155) at the empty parameter
object: the html renderer substitutes the placeholder only when a nested
body is supplied (an undefined check); the markdown renderer substitutes
only when the body is supplied and truthy, so the empty string is passed
through; the programmatic renderer hands the body to the compiled
component. -/
def renderPageM : PContents → Option String → String
  | .htmlC s, none => s
  | .htmlC s, some b => replaceFirst s bodyToken b
  | .mdC s, none => s
  | .mdC s, some b => if b = "" then s else replaceFirst s bodyToken b
  | .jsC f, ob => f ob

/-- One step of layout wrapping in renderScope: a scope with a layout renders
it with the accumulated body as nested body, a scope without one passes the
body through unchanged. -/
def applyLayoutOpt (l? : Option PContents) (body : String) : String :=
  match l? with
  | some l => renderPageM l (some body)
  | none => body

/-- A scope tree as the render engine walks it: name, optional layout,
pages (slug and contents) and child scopes. -/
inductive TScope where
  | mk (name : String) (layout? : Option PContents) (pages : List (String × PContents))
      (children : List TScope)

/-- Name of a scope tree node. -/
def TScope.nameOf : TScope → String
  | .mk n _ _ _ => n

/-- Layout of a scope tree node. -/
def TScope.layoutOf : TScope → Option PContents
  | .mk _ l _ _ => l

/-- Pages of a scope tree node. -/
def TScope.pagesOf : TScope → List (String × PContents)
  | .mk _ _ p _ => p

/-- Children of a scope tree node. -/
def TScope.childrenOf : TScope → List TScope
  | .mk _ _ _ c => c

/-- Model of renderScope (scope.ts lines 53 to 92). For every page of the
scope: render the page body, wrap it with this scope's layout if present,
then walk the ancestor chain upward applying each ancestor's layout to the
accumulated result (absent layouts pass it through), and write the result to
the output path built from the slug. Then recurse into each child scope with
this scope prepended to its ancestor chain and the child name appended to
the output directory. The ancestors list models the parent reference chain
from nearest parent up to the root; fuel bounds the unbounded source
recursion and any value at least the tree depth is exact. -/
def renderScopeM : Nat → List (Option PContents) → TScope → String → List (String × String)
  | 0, _, _, _ => []
  | fuel + 1, ancestors, sc, outdir =>
    (sc.pagesOf.map fun sp =>
      (outdir ++ "/" ++ sp.1 ++ ".html",
       ancestors.foldl (fun acc l? => applyLayoutOpt l? acc)
         (applyLayoutOpt sc.layoutOf (renderPageM sp.2 none))))
    ++ (sc.childrenOf.map fun c =>
          renderScopeM fuel (sc.layoutOf :: ancestors) c (outdir ++ "/" ++ c.nameOf)).flatten

/-- C2: nested-layout composition. For any root layout R, subdirectory
layout S and page P in the subdirectory, the single rendered output is
R applied to S applied to the page body, root layout outermost; and
ancestors lacking a layout pass the accumulated body through unchanged, as
shown both by the pass-through step itself and by a deeper tree whose
intermediate scope has no layout. -/
theorem C2_nested_layout_composition :
    ∀ (R S P : PContents) (slug : String),
      ((renderScopeM 2 [] (.mk "root" (some R) [] [.mk "sub" (some S) [(slug, P)] []])
          "out").map Prod.snd
        = [renderPageM R (some (renderPageM S (some (renderPageM P none))))]) ∧
      ((renderScopeM 3 []
          (.mk "root" (some R) [] [.mk "mid" none [] [.mk "leaf" none [(slug, P)] []]])
          "out").map Prod.snd
        = [renderPageM R (some (renderPageM P none))]) ∧
      (∀ b : String, applyLayoutOpt none b = b) := by
  intro R S P slug
  refine ⟨?_, ?_, fun b => rfl⟩ <;>
    simp [renderScopeM, TScope.pagesOf, TScope.childrenOf, TScope.layoutOf,
      TScope.nameOf, applyLayoutOpt]

/-- A string without the placeholder token is unchanged by the first-occurrence
replacement. -/
theorem replaceFirstAux_eq_of_not_contains (pat repl : List Char) :
    ∀ l : List Char, containsSeq pat l = false → replaceFirstAux pat repl l = l := by
  intro l
  induction l with
  | nil => intro _; rfl
  | cons c rest ih =>
    intro h
    simp only [containsSeq, Bool.or_eq_false_iff] at h
    simp [replaceFirstAux, h.1, ih h.2]

/-- C9: rendering a staticMarkup page returns its stored contents with the
placeholder token substituted by the supplied nested body when one is
supplied, and the contents unchanged when none is supplied; when the
contents hold no placeholder token, even a supplied body leaves them
unchanged; and a staticMarkup page with no placeholder token and no ancestor
layout renders to output byte-identical to its source content. -/
theorem C9_static_markup_rendering :
    ∀ (s b slug : String), hasBodyToken s = false →
      (∀ c b2 : String, renderPageM (.htmlC c) (some b2) = replaceFirst c bodyToken b2) ∧
      (∀ c : String, renderPageM (.htmlC c) none = c) ∧
      (renderPageM (.htmlC s) (some b) = s) ∧
      ((renderScopeM 1 [] (.mk "r" none [(slug, .htmlC s)] []) "out").map Prod.snd = [s]) := by
  intro s b slug h
  refine ⟨fun c b2 => rfl, fun c => rfl, ?_, ?_⟩
  · show replaceFirst s bodyToken b = s
    unfold replaceFirst
    rw [replaceFirstAux_eq_of_not_contains bodyToken.data b.data s.data h]
  · simp [renderScopeM, TScope.pagesOf, TScope.childrenOf, TScope.layoutOf,
      applyLayoutOpt, renderPageM]

/-- Witness for C9 at concrete contents lacking the placeholder token. -/
theorem C9_witness :
    hasBodyToken "<p>hello</p>" = false ∧
    (renderPageM (.htmlC "<p>hello</p>") (some "B") = "<p>hello</p>") ∧
    ((renderScopeM 1 [] (.mk "r" none [("idx", .htmlC "<p>hello</p>")] []) "out").map
        Prod.snd = ["<p>hello</p>"]) :=
  ⟨by decide,
   (C9_static_markup_rendering "<p>hello</p>" "B" "idx" (by decide)).2.2.1,
   (C9_static_markup_rendering "<p>hello</p>" "B" "idx" (by decide)).2.2.2⟩

--===========================================================================
-- Tree-construction scheduling (createScopeChildren in scope.ts, main in
-- index.ts) for claim C3.
--===========================================================================

/-- Directory tree, the input of the recursive child construction. -/
inductive DirT where
  | node (name : String) (subs : List DirT)

/-- Name of a directory node. -/
def DirT.nameOf : DirT → String
  | .node n _ => n

/-- Subdirectories of a directory node. -/
def DirT.subsOf : DirT → List DirT
  | .node _ s => s

/-- Scope-creation order actually produced by createScopeChildren
(scope.ts lines 151 to 176) under the event loop, in one admissible
schedule: the loop awaits createScope for each child (the creation event),
but the recursive createScopeChildren call on line 169 is not awaited, so the
child's own children are only processed when the event loop later resumes
that call past its readdir suspension; pending resumptions are modeled as a
first-in-first-out task queue. Each queue entry is a directory whose
children remain to be processed; fuel at least the number of directories is
exact. -/
def runQueueAux : Nat → List DirT → List String
  | 0, _ => []
  | _, [] => []
  | fuel + 1, d :: rest =>
    (d.subsOf.map DirT.nameOf) ++ runQueueAux fuel (rest ++ d.subsOf)

/-- Scope-creation order of the source's fire-and-forget recursion. -/
def scopeCreationOrderCode (fuel : Nat) (root : DirT) : List String :=
  runQueueAux fuel [root]

/-- Depth-first scope-creation order required by the claim: every child
subtree is completed before the next sibling starts. Modeled with an
explicit work stack; fuel bounds the recursion. -/
def dfAux : Nat → List DirT → List String
  | 0, _ => []
  | _, [] => []
  | fuel + 1, .node _ [] :: rest => dfAux fuel rest
  | fuel + 1, .node n (c :: cs) :: rest =>
    c.nameOf :: dfAux fuel (c :: .node n cs :: rest)

/-- Depth-first creation order for the whole tree. -/
def scopeCreationOrderClaim (fuel : Nat) (root : DirT) : List String :=
  dfAux fuel [root]

/-- Scopes already created when the promise awaited by main resolves and
rendering starts: only the root's direct children, since their recursive
createScopeChildren calls were not awaited. -/
def createdBeforeRenderStart (root : DirT) : List String :=
  root.subsOf.map DirT.nameOf

/-- Child-construction tasks still pending when rendering starts. -/
def pendingAtRenderStart (root : DirT) : List DirT :=
  root.subsOf

/-- Failing input for C3: a root with child a (which has its own child c)
and child b. -/
def treeC3 : DirT := .node "root" [.node "a" [.node "c" []], .node "b" []]

/-- C3 evaluation at the failing input: the unawaited recursion creates the
grandchild scope c only after sibling b, so construction is not depth-first
(a's subtree is not completed before b begins), and when rendering starts
the grandchild is not yet created and two child-construction tasks are
still pending, so the tree is not fully built before rendering. -/
theorem C3_missing_await_eval :
    scopeCreationOrderCode 10 treeC3 = ["a", "b", "c"] ∧
    scopeCreationOrderClaim 20 treeC3 = ["a", "c", "b"] ∧
    scopeCreationOrderCode 10 treeC3 ≠ scopeCreationOrderClaim 20 treeC3 ∧
    createdBeforeRenderStart treeC3 = ["a", "b"] ∧
    ("c" ∈ createdBeforeRenderStart treeC3 → False) ∧
    (pendingAtRenderStart treeC3).length = 2 := by
  refine ⟨by decide, by decide, by decide, by decide, ?_, by decide⟩
  intro h
  simp [createdBeforeRenderStart, treeC3, DirT.subsOf, DirT.nameOf] at h

--===========================================================================
-- Transform pipeline and page factory (transform.ts, page.ts).
--===========================================================================

/-- Top-level statement of the parsed page source as the in-house babel
plugins see it: an import declaration binding a local name to a source path,
a variable declaration whose initializer is a structural literal (none when
the initializer is not such a literal), or any other statement kept opaque.
Babel's parsing of the source text is external and is not remodeled;
statements are modeled at top level, which covers all code the claims
touch. -/
inductive JsStmt where
  | importDecl (localName : String) (source : String)
  | varDecl (vname : String) (initVal? : Option JVal)
  | otherStmt (tag : String)
deriving Repr

/-- Model of the ExtractFrontmatter plugin (transform.ts lines 283 to 303):
visit every variable declaration, and for a declarator named frontmatter
whose initializer is an object literal, assign its value into the
accumulator object. The pass reads the program and removes nothing. -/
def extractFrontmatter (prog : List JsStmt) : List (String × JVal) :=
  prog.foldl
    (fun acc s =>
      match s with
      | JsStmt.varDecl "frontmatter" (some (JVal.obj fields)) => objAssign acc fields
      | _ => acc)
    []

/-- Model of LambConfig (config.ts): the configuration file contents. It
exposes no page cache and no scope cache. -/
structure LambConfigM where
  name? : Option String
  outdir? : Option String
deriving Repr, DecidableEq

/-- Model of LambState (state.ts): the shared build state holding the
configuration and the two caches. The cache contents are irrelevant to the
claims below and are not carried here; what matters is which object is
passed where. -/
structure LambStateM where
  config : LambConfigM
deriving Repr, DecidableEq

/-- The value handed to a page processor or a loader as its first argument:
either the shared build state or the configuration object. In the JavaScript
source both flow through untyped positions, so the embedding keeps them in
one sum type to record which one was actually passed. -/
inductive StateArg where
  | state (s : LambStateM)
  | config (c : LambConfigM)
deriving Repr, DecidableEq

/-- Model of Loaders.Markdown (page.ts lines 161 to 181): read the file,
split on the horizontal-rule delimiter, parse the middle segment as YAML if
the split yields at least three segments, and assign the file path under the
key file. A missing file makes readFileSync throw, modeled as none. The
first argument is ignored by the loader body, exactly as in the source. -/
def loaderMarkdownM (fs : List (String × String)) (_arg : StateArg)
    (filepath : String) : Option JVal :=
  (lookupS fs filepath).map fun content =>
    let parts := splitDashes content
    let obj := if 3 ≤ parts.length then yamlParseFlat ((parts.get? 1).getD "") else []
    JVal.obj (objAssign obj [("file", JVal.str filepath)])

/-- Model of LoaderMap (page.ts lines 183 to 186): markdown loader for the
md and mdx extensions, nothing else. -/
def loaderMapM (fs : List (String × String)) :
    String → Option (StateArg → String → Option JVal) :=
  fun ext =>
    if ext = ".md" then some (loaderMarkdownM fs)
    else if ext = ".mdx" then some (loaderMarkdownM fs)
    else none

/-- Collect a list of optional values, failing on the first failure, as a
sequence of loader calls that can each throw. -/
def sequenceO {α : Type} : List (Option α) → Option (List α)
  | [] => some []
  | none :: _ => none
  | some x :: rest =>
    match sequenceO rest with
    | none => none
    | some xs => some (x :: xs)

/-- Model of the SpecialImports plugin on one statement (transform.ts lines
374 to 425). For an import declaration whose source extension has a
registered loader: with a wildcard in the source path, expand it through the
external glob against the importing file's directory, join each match onto
that directory, call the loader once per matched file in match order, and
replace the import with a constant binding of the local name to the array of
results; without a wildcard, call the loader once on the literal source path
and bind the single result. Unmatched extensions leave the statement
untouched. The second component logs every loader invocation as the pair of
its first and second arguments; none models a thrown loader error. -/
def specialImportsStmt (loaders : String → Option (StateArg → String → Option JVal))
    (globSync : String → String → List String) (lambstate : StateArg)
    (importerFile : String) : JsStmt → Option (JsStmt × List (StateArg × String))
  | JsStmt.importDecl localName source =>
    match loaders (jsExtname source) with
    | none => some (JsStmt.importDecl localName source, [])
    | some loader =>
      if hasStar source then
        let dir := jsDirname importerFile
        let files := (globSync source dir).map (jsPathJoin dir)
        match sequenceO (files.map (loader lambstate)) with
        | none => none
        | some vals =>
          some (JsStmt.varDecl localName (some (JVal.arr vals)),
            files.map (fun f => (lambstate, f)))
      else
        match loader lambstate source with
        | none => none
        | some v => some (JsStmt.varDecl localName (some v), [(lambstate, source)])
  | s => some (s, [])

/-- The SpecialImports plugin over a whole program, concatenating the
invocation logs in program order. -/
def transformSpecialImports (loaders : String → Option (StateArg → String → Option JVal))
    (globSync : String → String → List String) (lambstate : StateArg)
    (importerFile : String) : List JsStmt → Option (List JsStmt × List (StateArg × String))
  | [] => some ([], [])
  | s :: rest =>
    match specialImportsStmt loaders globSync lambstate importerFile s with
    | none => none
    | some (s2, log1) =>
      match transformSpecialImports loaders globSync lambstate importerFile rest with
      | none => none
      | some (rest2, log2) => some (s2 :: rest2, log1 ++ log2)

/-- Page produced by createMarkdownPage as far as the claims observe it. -/
structure MdPageM where
  path : String
  slug : String
  frontmatter : List (String × JVal)
deriving Repr

/-- Model of createMarkdownPage (page.ts lines 221 to 256): the raw text is
compiled by the external content compiler (compileMdx abstracts the mdx
compile call together with babel's parse of its emitted code), and the
frontmatter accumulator is filled by running the transform pipeline with
only the ExtractFrontmatter pass enabled over that emitted code. The
function performs no delimiter split of the raw text and no merge of
delimiter-derived data; its frontmatter is exactly what the transform pass
extracts. -/
def createMarkdownPageM (compileMdx : String → List JsStmt) (raw : String)
    (pathToPage : String) : MdPageM :=
  { path := pathToPage
    slug := jsNameOf pathToPage
    frontmatter := extractFrontmatter (compileMdx raw) }

/-- Modelled from the spec wording of claim C4, for refinement comparison
only: frontmatter obtained by splitting the raw text on the delimiter line,
parsing the middle segment when the split yields at least three segments,
then merging the frontmatter found by the extract pass over the
delimiter-based frontmatter. -/
def claimC4Frontmatter (compileMdx : String → List JsStmt) (raw : String) :
    List (String × JVal) :=
  let parts := splitDashes raw
  let delimFm := if 3 ≤ parts.length then yamlParseFlat ((parts.get? 1).getD "") else []
  objAssign delimFm (extractFrontmatter (compileMdx raw))

/-- Model of the createPage dispatch (page.ts lines 291 to 330) restricted to
what claim C5 observes: the processor for the recognized extension is called
with state.config as its first argument, and a programmatic page's
processor hands exactly that value to the SpecialImports pass as the state
its loaders receive. The returned list logs every loader invocation's first
and second argument; markup and markup-like pages run no SpecialImports
pass, and an unrecognized extension throws. -/
def createPageLoaderLog (fs : List (String × String))
    (globSync : String → String → List String) (st : LambStateM)
    (pathToPage : String) (source : List JsStmt) : Option (List (StateArg × String)) :=
  let knownExtensions : List (String × String) :=
    [(".md", "md"), (".mdx", "md"), (".htm", "html"), (".html", "html"),
     (".js", "js"), (".jsx", "js"), (".ts", "js"), (".tsx", "js")]
  match lookupS knownExtensions (jsExtname pathToPage) with
  | some "js" =>
    match transformSpecialImports (loaderMapM fs) globSync (StateArg.config st.config)
        pathToPage source with
    | none => none
    | some (_, log) => some log
  | some _ => some []
  | none => none

--===========================================================================
-- Claims C4, C5, C6.
--===========================================================================

/-- The frontmatter round-trip input of claim C4. -/
def rawC4 : String := "---\ntitle: Hello\n---\nBody text"

/-- An admissible external compiler output holding no frontmatter binding;
the content compiler is a black box to this core, and createMarkdownPage
treats its output uniformly. -/
def compileEmptyC4 : String → List JsStmt := fun _ => []

/-- C4 counterexample: createMarkdownPage does not split the raw text on the
delimiter and merges nothing; its frontmatter is exactly what the
ExtractFrontmatter pass finds in the compiler's emitted code. With the
round-trip input of the claim and an emitted code holding no frontmatter
binding, the page frontmatter is empty, while the split-then-merge recipe
the claim describes would produce the title entry; the claimed equality
fails at this input. -/
theorem C4_counterexample :
    (createMarkdownPageM compileEmptyC4 rawC4 "/p/x.md").frontmatter = [] ∧
    claimC4Frontmatter compileEmptyC4 rawC4 = [("title", JVal.str "Hello")] ∧
    ((createMarkdownPageM compileEmptyC4 rawC4 "/p/x.md").frontmatter
        = claimC4Frontmatter compileEmptyC4 rawC4 → False) := by
  have h1 : (createMarkdownPageM compileEmptyC4 rawC4 "/p/x.md").frontmatter = [] := rfl
  have h2 : claimC4Frontmatter compileEmptyC4 rawC4 = [("title", JVal.str "Hello")] := rfl
  refine ⟨h1, h2, fun h => ?_⟩
  rw [h1, h2] at h
  exact List.noConfusion h

/-- An external compiler output carrying the frontmatter binding that the
mdx frontmatter plugins emit for the round-trip input. -/
def compileWithFmC4 : String → List JsStmt :=
  fun _ => [JsStmt.varDecl "frontmatter" (some (JVal.obj [("title", JVal.str "Hello")]))]

/-- Filesystem holding the round-trip input for the loader side of C4. -/
def fsC4 : List (String × String) := [("/p/x.md", rawC4)]

/-- C4 amended: for every markup page the frontmatter of the built page is
exactly what the ExtractFrontmatter pass extracts from the compiler's
emitted code (no delimiter split and no merge happen in createMarkdownPage);
the delimiter split lives in the Markdown special-import loader, which on
the round-trip input yields the title entry plus the file path; and with a
compiler that emits the frontmatter binding for the delimited block, the
round-trip input yields frontmatter holding exactly the title entry. -/
theorem C4_amended_frontmatter_source :
    (∀ (compileMdx : String → List JsStmt) (raw pathToPage : String),
      (createMarkdownPageM compileMdx raw pathToPage).frontmatter
        = extractFrontmatter (compileMdx raw)) ∧
    (loaderMarkdownM fsC4 (StateArg.config ⟨none, none⟩) "/p/x.md"
      = some (JVal.obj [("title", JVal.str "Hello"), ("file", JVal.str "/p/x.md")])) ∧
    ((createMarkdownPageM compileWithFmC4 rawC4 "/p/x.md").frontmatter
      = [("title", JVal.str "Hello")]) :=
  ⟨fun _ _ _ => rfl, rfl, rfl⟩

/-- Configuration of the C5 failing input. -/
def cfgC5 : LambConfigM := ⟨none, some "/out"⟩

/-- Shared build state of the C5 failing input. -/
def stC5 : LambStateM := ⟨cfgC5⟩

/-- Filesystem of the C5 failing input (the non-wildcard import path reaches
the loader verbatim). -/
def fsC5 : List (String × String) := [("./a.md", "---\ntitle: A\n---\nalpha")]

/-- A programmatic page source with one special import. -/
def progC5 : List JsStmt := [JsStmt.importDecl "posts" "./a.md"]

/-- Glob model returning no matches, unused on non-wildcard paths. -/
def globNone : String → String → List String := fun _ _ => []

/-- C5 evaluation at the failing input: building a programmatic page through
the createPage dispatch invokes the special-import loader with the
configuration object (state.config) as its first argument, not the shared
build state; the configuration is never equal to any build-state value, so
the loader does not receive the build state claimed (its second argument is
the file path, as claimed). -/
theorem C5_loader_receives_config :
    createPageLoaderLog fsC5 globNone stC5 "/p/page.jsx" progC5
      = some [(StateArg.config cfgC5, "./a.md")] ∧
    (∀ s : LambStateM, StateArg.config cfgC5 = StateArg.state s → False) :=
  ⟨rfl, fun _ h => StateArg.noConfusion h⟩

/-- C6: resolution of special imports by the SpecialImports pass. With a
wildcard source path whose extension has a registered loader, the import
statement is replaced by a constant binding of the imported local name to
the array of loader results, one per file matched by the external glob
relative to the importing file's directory, in match order, and the loader
is invoked once per matched file with that file's joined path; with a
non-wildcard source path, the import is replaced by a binding to the single
loader result of the literal path. -/
theorem C6_wildcard_and_literal_imports :
    ∀ (fs : List (String × String)) (globSync : String → String → List String)
      (lamb : StateArg) (importer lname1 source1 lname2 source2 : String)
      (vals : List JVal) (v : JVal),
      hasStar source1 = true →
      jsExtname source1 = ".md" →
      sequenceO
        (((globSync source1 (jsDirname importer)).map
            (jsPathJoin (jsDirname importer))).map (loaderMarkdownM fs lamb)) = some vals →
      hasStar source2 = false →
      jsExtname source2 = ".md" →
      loaderMarkdownM fs lamb source2 = some v →
      (specialImportsStmt (loaderMapM fs) globSync lamb importer
          (JsStmt.importDecl lname1 source1)
        = some (JsStmt.varDecl lname1 (some (JVal.arr vals)),
            ((globSync source1 (jsDirname importer)).map
              (jsPathJoin (jsDirname importer))).map (fun f => (lamb, f)))) ∧
      (specialImportsStmt (loaderMapM fs) globSync lamb importer
          (JsStmt.importDecl lname2 source2)
        = some (JsStmt.varDecl lname2 (some v), [(lamb, source2)])) := by
  intro fs globSync lamb importer lname1 source1 lname2 source2 vals v
  intro hstar1 hext1 hseq hstar2 hext2 hload
  constructor
  · rw [List.map_map] at hseq
    simp [specialImportsStmt, hext1, loaderMapM, hstar1, hseq]
  · simp [specialImportsStmt, hext2, loaderMapM, hstar2, hload]

/-- Filesystem of the C6 witness: the a and b documents of the claim's
example, plus a document imported by literal path. -/
def fsC6 : List (String × String) :=
  [("/dir/a.md", "---\ntitle: A\n---\nalpha"),
   ("/dir/b.md", "---\ntitle: B\n---\nbeta"),
   ("./c.md", "---\ntitle: C\n---\ngamma")]

/-- Glob model for the C6 witness, returning the two markdown files of the
importing directory in filesystem-match order. -/
def globC6 : String → String → List String :=
  fun pat dir => if pat = "./*.md" ∧ dir = "/dir" then ["a.md", "b.md"] else []

/-- Loader first argument used in the C6 witness. -/
def lambC6 : StateArg := StateArg.config ⟨none, none⟩

/-- Witness for C6 at the claim's example: two loader results in match
order, each holding its file's frontmatter title and its path, bound as an
array; and a literal import bound to its single loader result. -/
theorem C6_witness :
    hasStar "./*.md" = true ∧
    jsExtname "./*.md" = ".md" ∧
    hasStar "./c.md" = false ∧
    jsExtname "./c.md" = ".md" ∧
    (specialImportsStmt (loaderMapM fsC6) globC6 lambC6 "/dir/page.jsx"
        (JsStmt.importDecl "currentpages" "./*.md")
      = some (JsStmt.varDecl "currentpages" (some (JVal.arr
          [JVal.obj [("title", JVal.str "A"), ("file", JVal.str "/dir/a.md")],
           JVal.obj [("title", JVal.str "B"), ("file", JVal.str "/dir/b.md")]])),
          [(lambC6, "/dir/a.md"), (lambC6, "/dir/b.md")])) ∧
    (specialImportsStmt (loaderMapM fsC6) globC6 lambC6 "/dir/page.jsx"
        (JsStmt.importDecl "single" "./c.md")
      = some (JsStmt.varDecl "single" (some (JVal.obj
          [("title", JVal.str "C"), ("file", JVal.str "./c.md")])),
          [(lambC6, "./c.md")])) :=
  ⟨rfl, rfl, rfl, rfl,
   (C6_wildcard_and_literal_imports fsC6 globC6 lambC6 "/dir/page.jsx"
      "currentpages" "./*.md" "single" "./c.md"
      [JVal.obj [("title", JVal.str "A"), ("file", JVal.str "/dir/a.md")],
       JVal.obj [("title", JVal.str "B"), ("file", JVal.str "/dir/b.md")]]
      (JVal.obj [("title", JVal.str "C"), ("file", JVal.str "./c.md")])
      rfl rfl rfl rfl rfl rfl).1,
   (C6_wildcard_and_literal_imports fsC6 globC6 lambC6 "/dir/page.jsx"
      "currentpages" "./*.md" "single" "./c.md"
      [JVal.obj [("title", JVal.str "A"), ("file", JVal.str "/dir/a.md")],
       JVal.obj [("title", JVal.str "B"), ("file", JVal.str "/dir/b.md")]]
      (JVal.obj [("title", JVal.str "C"), ("file", JVal.str "./c.md")])
      rfl rfl rfl rfl rfl rfl).2⟩
